import Mathlib

/-!
Verification of the plan-execute routing engine.

A shallow embedding of the orchestration core of the repository
(`agent_state.py`, `agent_nodes.py`, `agent_graph.py`, `studio_app.py`),
together with theorems settling the frozen claims about it.

Modelling conventions:
* Python dict state (`AgentState`) becomes a Lean structure.  Keys that the
  source initialises on entry (`task_history`, `research_results`, …) or that
  any reachable run always carries (`messages`, `error_log`, `context`) are
  plain fields; keys whose absence is observable through `dict.get` defaults
  (`current_task`, `final_answer`, and the keys inside `context`) are
  `Option` fields read with the source's default via `Option.getD`.
* Machine integers are `Int` (Python ints are unbounded; `current_step` can
  be negative if supplied by a caller, and Python list indexing then wraps —
  modelled by `pyIndex`).
* Every external call (model invocation, tool call) goes through an oracle.
  Tool wrappers in `tools.py` catch all exceptions and return a `ToolResult`
  envelope, but a handler invocation may still raise (e.g. malformed data),
  so an oracle answer is either `CallResult.ok` or `CallResult.exc`; an
  `exc` answer makes the surrounding `try`/`except` of the calling node fire,
  exactly as in the source.
* Message objects (`HumanMessage`/`AIMessage`/`SystemMessage`) carry `type`
  and `content` attributes; plain dict messages carry neither attribute.
  `Msg.obj` and `Msg.dict` model the two shapes.
* String payloads of tool results, timestamps and the pretty-printed JSON of
  `json.dumps(plan, indent=2)` are unread by every claim; `plan_json` renders
  a plan as a JSON-shaped string without reproducing Python's exact
  indentation.
-/

/-- `ToolResult` from `agent_state.py`: the uniform envelope returned by every
tool in `tools.py`. The `result` payload is modelled as a string. -/
structure ToolResult where
  tool_name : String
  success : Bool
  result : String
  error : Option String
deriving DecidableEq

/-- One plan step, the `Step` shape of `agent_nodes.py` plans:
`{"step": n, "action": a, "description": d, "tools_needed": ts}`. -/
structure Step where
  step : Int
  action : String
  description : String
  tools_needed : List String
deriving DecidableEq

/-- An execution plan as produced by `planning_node`. -/
structure Plan where
  steps : List Step
  expected_outcome : String
  success_criteria : List String
  risks : List String
deriving DecidableEq

/-- The empty plan: models `context.get("execution_plan", {})` yielding `{}`,
whose `.get("steps", [])` is the empty list. -/
def Plan.empty : Plan :=
  { steps := [], expected_outcome := "", success_criteria := [], risks := [] }

/-- A conversation entry. `obj` models a LangChain message object carrying
`.type` and `.content` attributes; `dict` models a plain dict entry (role and
content keys but no attributes, so `hasattr(msg, "content")` is false). -/
inductive Msg where
  | obj (type_ : String) (content : String)
  | dict (role : String) (content : String)
deriving DecidableEq

/-- A record appended to `research_results` by `_execute_research_step`. -/
structure ResearchRecord where
  step : Int
  query : String
  results : String
  timestamp : String
deriving DecidableEq

/-- A record appended to `context["mcp_results"]` by `_execute_mcp_step`. -/
structure McpRecord where
  step : Int
  action : String
  description : String
  status : String
  timestamp : String
deriving DecidableEq

/-- A record appended to `context["validation_results"]` by
`_execute_validation_step`. -/
structure ValidationRecord where
  step : Int
  result : String
  timestamp : String
deriving DecidableEq

/-- A record appended to `context["generated_code"]` by
`_execute_code_generation_step`. -/
structure CodeRecord where
  step : Int
  code : String
  timestamp : String
deriving DecidableEq

/-- The `context` dict of `AgentState`.  Each key the core reads or writes is
an `Option` field (`none` = key absent), mirroring `context.get(key, default)`
and `if key not in context` in the source.  `conversation_ready` is the
truthiness of `context.get("conversation_ready")`. -/
structure Ctx where
  execution_plan : Option Plan
  current_step : Option Int
  next_action : Option String
  conversation_ready : Bool
  mcp_results : Option (List McpRecord)
  validation_results : Option (List ValidationRecord)
  generated_code : Option (List CodeRecord)
deriving DecidableEq

/-- The `AgentState` TypedDict of `agent_state.py`.  `analysis_results` is the
dict keyed by `"step_<n>"` strings, modelled as an association list. -/
structure AgentState where
  messages : List Msg
  current_task : Option String
  task_history : List String
  research_results : List ResearchRecord
  analysis_results : List (String × String)
  final_answer : Option String
  tools_used : List String
  iteration_count : Int
  max_iterations : Int
  error_log : List String
  context : Ctx
deriving DecidableEq

/-- Outcome of one external call made by a handler: the tool's envelope, or an
exception propagating out of the handler into the node's `except` clause. -/
inductive CallResult where
  | ok (r : ToolResult)
  | exc (e : String)
deriving DecidableEq

/-- `true` iff the call returned an envelope rather than raising. -/
def CallResult.isOkB : CallResult → Bool
  | .ok _ => true
  | .exc _ => false

/-- Oracle for one pass of `execution_node`: the answers of the external
capabilities its handlers may consult, whether an MCP client is configured,
and the `datetime.now().isoformat()` timestamp. -/
structure ExecOracle where
  webSearch : String → CallResult
  analyzeData : String → String → CallResult
  validateInput : CallResult
  generateCode : String → CallResult
  mcpConfigured : Bool
  timestamp : String

/-- The oracle answers every call with an envelope (no handler raises);
this is the regime of `tools.py`, whose wrappers catch all exceptions. -/
def NoRaise (o : ExecOracle) : Prop :=
  (∀ q, (o.webSearch q).isOkB = true) ∧
  (∀ d t, (o.analyzeData d t).isOkB = true) ∧
  (o.validateInput.isOkB = true) ∧
  (∀ r, (o.generateCode r).isOkB = true)

/-- Result of dispatching one step: the mutated state, or an exception
message escaping into `execution_node`'s `except` clause. -/
inductive HandlerOutcome where
  | ok (s : AgentState)
  | raised (e : String)
deriving DecidableEq

/-- Python list indexing `l[i]`: non-negative indices from the front,
negative indices wrap from the back, out of range raises `IndexError`. -/
def pyIndex (l : List Step) (i : Int) : Option Step :=
  if 0 ≤ i then l.get? i.toNat
  else if 0 ≤ i + l.length then l.get? (i + l.length).toNat
  else none

/-- `AgentNodes._execute_research_step`: web search on the step description;
on success append a research record and `"web_search"` to `tools_used`; an
unsuccessful envelope leaves the state untouched. -/
def execute_research_step (o : ExecOracle) (s : AgentState) (st : Step) :
    HandlerOutcome :=
  match o.webSearch st.description with
  | .exc e => .raised e
  | .ok r =>
    if r.success then
      .ok { s with
        research_results := s.research_results ++
          [{ step := st.step, query := st.description, results := r.result,
             timestamp := o.timestamp }],
        tools_used := s.tools_used ++ ["web_search"] }
    else .ok s

/-- Python dict assignment `d[k] = v` on a string-keyed dict modelled as an
association list: overwrite in place if the key exists, else append. -/
def dictInsert (d : List (String × String)) (k v : String) :
    List (String × String) :=
  if d.any (fun kv => kv.1 = k) then
    d.map (fun kv => if kv.1 = k then (k, v) else kv)
  else d ++ [(k, v)]

/-- `AgentNodes._execute_analysis_step`: only acts when `research_results` is
non-empty; feeds the latest entry to `analyze_data`; on success stores the
result under `"step_<n>"` and records the tool. -/
def execute_analysis_step (o : ExecOracle) (s : AgentState) (st : Step) :
    HandlerOutcome :=
  match s.research_results.getLast? with
  | none => .ok s
  | some latest =>
    match o.analyzeData latest.results ("step_" ++ toString st.step ++ "_analysis") with
    | .exc e => .raised e
    | .ok r =>
      if r.success then
        .ok { s with
          analysis_results :=
            dictInsert s.analysis_results ("step_" ++ toString st.step) r.result,
          tools_used := s.tools_used ++ ["analyze_data"] }
      else .ok s

/-- `AgentNodes._execute_mcp_step`: with a configured client, appends a
simulated success record to `context["mcp_results"]` (initialising the list if
absent) — no external call occurs in the source, so its inner `try` cannot
fire; without a client, logs `"MCP client not available"`. -/
def execute_mcp_step (o : ExecOracle) (s : AgentState) (st : Step) :
    HandlerOutcome :=
  if o.mcpConfigured then
    let mcp_result : McpRecord :=
      { step := st.step, action := "mcp_tool_executed",
        description := st.description, status := "success",
        timestamp := o.timestamp }
    .ok { s with
      context := { s.context with
        mcp_results := some ((s.context.mcp_results.getD []) ++ [mcp_result]) },
      tools_used := s.tools_used ++ ["mcp_tools"] }
  else
    .ok { s with error_log := s.error_log ++ ["MCP client not available"] }

/-- `AgentNodes._execute_validation_step`: validates the whole state via
`validate_input`; on success appends a verdict to
`context["validation_results"]` and records the tool. -/
def execute_validation_step (o : ExecOracle) (s : AgentState) (st : Step) :
    HandlerOutcome :=
  match o.validateInput with
  | .exc e => .raised e
  | .ok r =>
    if r.success then
      .ok { s with
        context := { s.context with
          validation_results := some ((s.context.validation_results.getD []) ++
            [{ step := st.step, result := r.result, timestamp := o.timestamp }]) },
        tools_used := s.tools_used ++ ["validate_input"] }
    else .ok s

/-- `AgentNodes._execute_code_generation_step`: generates code from the step
description; on success appends it to `context["generated_code"]`. -/
def execute_code_generation_step (o : ExecOracle) (s : AgentState) (st : Step) :
    HandlerOutcome :=
  match o.generateCode st.description with
  | .exc e => .raised e
  | .ok r =>
    if r.success then
      .ok { s with
        context := { s.context with
          generated_code := some ((s.context.generated_code.getD []) ++
            [{ step := st.step, code := r.result, timestamp := o.timestamp }]) },
        tools_used := s.tools_used ++ ["generate_code"] }
    else .ok s

/-- `AgentNodes._execute_generic_step`: records an audit message only. -/
def execute_generic_step (s : AgentState) (st : Step) : HandlerOutcome :=
  .ok { s with
    messages := s.messages ++
      [Msg.obj "ai" ("Executed generic step: " ++ st.description)] }

/-- The action dispatch of `execution_node` (lines 179–191 of
`agent_nodes.py`): classify `step.action` and run the matching handler. -/
def dispatchStep (o : ExecOracle) (s : AgentState) (st : Step) :
    HandlerOutcome :=
  if st.action = "research" then execute_research_step o s st
  else if st.action = "analyze" then execute_analysis_step o s st
  else if st.action = "execute" && st.tools_needed.contains "mcp_tools" then
    execute_mcp_step o s st
  else if st.action = "validate" then execute_validation_step o s st
  else if st.action = "code_gen" then execute_code_generation_step o s st
  else execute_generic_step s st

/-- `context["next_action"] = a`. -/
def setNextAction (s : AgentState) (a : String) : AgentState :=
  { s with context := { s.context with next_action := some a } }

/-- `context["current_step"] = i`. -/
def setCurrentStep (s : AgentState) (i : Int) : AgentState :=
  { s with context := { s.context with current_step := some i } }

/-- `state["messages"].append(m)`. -/
def appendMessage (s : AgentState) (m : Msg) : AgentState :=
  { s with messages := s.messages ++ [m] }

/-- The `except` clause of `execution_node`: log the error and force the
complete signal. -/
def executionExcept (s : AgentState) (e : String) : AgentState :=
  setNextAction
    { s with error_log := s.error_log ++ ["Execution node error: " ++ e] }
    "complete"

/-- `AgentNodes.execution_node`: the dispatcher.  Reads the plan and cursor
(with the source's `get` defaults), emits `complete` when the cursor has
passed the last step, otherwise logs the step, dispatches it, advances the
cursor and chooses the next signal; any exception escaping the dispatch is
caught, logged and converted to `complete`. -/
def execution_node (o : ExecOracle) (s : AgentState) : AgentState :=
  let execution_plan := s.context.execution_plan.getD Plan.empty
  let current_step_index := s.context.current_step.getD 0
  let steps := execution_plan.steps
  if (steps.length : Int) ≤ current_step_index then
    setNextAction s "complete"
  else
    match pyIndex steps current_step_index with
    | none => executionExcept s "list index out of range"
    | some current_step =>
      let s1 := appendMessage s (Msg.obj "ai"
        ("Executing step " ++ toString (current_step_index + 1) ++ ": " ++
          current_step.description))
      match dispatchStep o s1 current_step with
      | .raised e => executionExcept s1 e
      | .ok s2 =>
        let s3 := setCurrentStep s2 (current_step_index + 1)
        if (steps.length : Int) ≤ current_step_index + 1 then
          setNextAction s3 "complete"
        else
          setNextAction s3 "execute"

/-- The stored step cursor as the dispatcher reads it:
`context.get("current_step", 0)`. -/
def cursorOf (s : AgentState) : Int := s.context.current_step.getD 0

/-- Number of plan steps, as the dispatcher sees it (missing plan = no steps). -/
def planLenNat (s : AgentState) : Nat :=
  (s.context.execution_plan.getD Plan.empty).steps.length

/-- `planLenNat` as an integer, for comparison with the cursor. -/
def planLenInt (s : AgentState) : Int := (planLenNat s : Int)

/-- Iterated dispatcher passes; pass `n` consumes oracle `os n`. -/
def execIter (os : Nat → ExecOracle) : Nat → AgentState → AgentState
  | 0, s => s
  | n + 1, s => execution_node (os n) (execIter os n s)

/-- Oracle for one pass of `planning_node`.  Three outcomes of the
knowledge/prompt/model section, covering every path of the source `try`:
`exc` — an exception before or at the model call (nothing installed yet);
`response (some p)` — the response parses and `plan["steps"]` is a
well-shaped sized list, so the whole success path runs;
`response none` — `json.loads` raises `JSONDecodeError`, so the fixed
fallback plan is substituted and the success path runs with it;
`responseNoSteps e` — the response is JSON-decodable (e.g. `"{}"`) but
`plan["steps"]` is missing or unsized, so line 137 (`len(plan["steps"])`)
raises `e` *after* the plan install (line 132), the cursor reset (line 133)
and the iteration increment (line 134), and the `except` clause then
overwrites the installed plan with `error_fallback_plan`. -/
inductive PlanOracle where
  | exc (e : String)
  | response (parsed : Option Plan)
  | responseNoSteps (e : String)

/-- The fixed fallback plan installed by `planning_node` when JSON parsing of
the model response fails (lines 117–128 of `agent_nodes.py`). -/
def fallback_plan : Plan :=
  { steps :=
      [{ step := 1, action := "research", description := "Gather information",
         tools_needed := ["web_search"] },
       { step := 2, action := "analyze", description := "Analyze findings",
         tools_needed := ["analyze_data"] },
       { step := 3, action := "execute", description := "Execute plan",
         tools_needed := ["mcp_tools"] },
       { step := 4, action := "validate", description := "Validate results",
         tools_needed := ["validate_input"] }],
    expected_outcome := "Task completion",
    success_criteria := ["Task completed successfully"],
    risks := ["Incomplete information", "Tool failures"] }

/-- The one-step plan installed by `planning_node`'s `except` clause
(lines 146–152 of `agent_nodes.py`). -/
def error_fallback_plan : Plan :=
  { steps :=
      [{ step := 1, action := "complete", description := "Complete with error",
         tools_needed := [] }],
    expected_outcome := "Error recovery",
    success_criteria := ["Handle error gracefully"],
    risks := ["Task incomplete"] }

/-- The scan `for msg in reversed(messages): if msg.type == "human"` —
content of the most recent message object typed `"human"`. -/
def last_human_content (ms : List Msg) : Option String :=
  ms.reverse.findSome? (fun m =>
    match m with
    | Msg.obj t c => if t = "human" then some c else none
    | Msg.dict _ _ => none)

/-- Lines 81–87 of `agent_nodes.py`: derive `current_task` from the latest
human message and append it to `task_history` (a no-op when none exists). -/
def extract_task (s : AgentState) : AgentState :=
  match last_human_content s.messages with
  | some c => { s with current_task := some c, task_history := s.task_history ++ [c] }
  | none => s

/-- JSON rendering of one step, standing in for its `json.dumps` fragment. -/
def step_json (st : Step) : String :=
  "\x7b\"step\": " ++ toString st.step ++ ", \"action\": \"" ++ st.action ++
  "\", \"description\": \"" ++ st.description ++ "\", \"tools_needed\": [" ++
  String.intercalate ", " (st.tools_needed.map (fun t => "\"" ++ t ++ "\"")) ++
  "]\x7d"

/-- JSON rendering of a plan, standing in for `json.dumps(plan, indent=2)`
(the exact pretty-printing is immaterial to every claim). -/
def plan_json (p : Plan) : String :=
  "\x7b\"steps\": [" ++ String.intercalate ", " (p.steps.map step_json) ++
  "], \"expected_outcome\": \"" ++ p.expected_outcome ++ "\"\x7d"

/-- The planner message appended on a successful planning pass (line 136). -/
def plan_message (p : Plan) : String :=
  "Execution plan created with " ++ toString p.steps.length ++ " steps: " ++
  plan_json p

/-- `AgentNodes.planning_node`.  Field initialisation (lines 62–73) is the
identity here because the embedded state always carries those fields.  Then:
derive the task from the conversation when unset, short-circuit once the
iteration budget is exhausted, otherwise consult the model; a parse failure
substitutes `fallback_plan`; an exception before the model returns is caught
by the `except` clause, which logs it and installs `error_fallback_plan`
(without touching `iteration_count` or the conversation); and a parseable
response whose `plan["steps"]` access raises (after the install at lines
132–134) also ends in the `except` clause — with `iteration_count` already
incremented, no planner message appended, and the installed plan overwritten
by `error_fallback_plan`. -/
def planning_node (o : PlanOracle) (s0 : AgentState) : AgentState :=
  let current_task := s0.current_task.getD ""
  let s := if current_task = "" ∧ s0.messages ≠ [] then extract_task s0 else s0
  if s0.max_iterations ≤ s0.iteration_count then
    { s with final_answer := some "Maximum iterations reached. Task incomplete." }
  else
    match o with
    | .exc e =>
      { s with
        error_log := s.error_log ++ ["Planning node error: " ++ e],
        context := { s.context with
          execution_plan := some error_fallback_plan, current_step := some 0 } }
    | .response parsed =>
      let plan := parsed.getD fallback_plan
      { s with
        context := { s.context with
          execution_plan := some plan, current_step := some 0 },
        iteration_count := s0.iteration_count + 1,
        messages := s.messages ++ [Msg.obj "ai" (plan_message plan)] }
    | .responseNoSteps e =>
      { s with
        iteration_count := s0.iteration_count + 1,
        error_log := s.error_log ++ ["Planning node error: " ++ e],
        context := { s.context with
          execution_plan := some error_fallback_plan, current_step := some 0 } }

/-- The Python rendering of `bool(analysis_results)` inside the f-string of
`completion_node`. -/
def analysis_flag (s : AgentState) : String :=
  if s.analysis_results.isEmpty then "False" else "True"

/-- The synthetic final answer built by `completion_node` (lines 623–630):
a deterministic summary from the research count, analysis flag, tools used,
iteration count and error count — no external call. -/
def final_summary (s : AgentState) : String :=
  "Task completed: " ++ s.current_task.getD "" ++ "\n                \n" ++
  "Research conducted: " ++ toString s.research_results.length ++ " searches\n" ++
  "Analysis performed: " ++ analysis_flag s ++ "\n" ++
  "Tools used: " ++ String.intercalate ", " s.tools_used ++ "\n" ++
  "Iterations: " ++ toString s.iteration_count ++ "\n                \n" ++
  (if s.error_log.isEmpty then "No errors"
   else "Errors encountered: " ++ toString s.error_log.length)

/-- `AgentNodes.completion_node`: return the state unchanged for a completed
conversational turn; otherwise fill a falsy `final_answer` with the synthetic
summary.  No operation in the body can raise on a well-typed state, so the
`except` clause (lines 636–640) is unreachable and not modelled.  Note the
source appends nothing to `messages`. -/
def completion_node (s : AgentState) : AgentState :=
  if s.context.conversation_ready then s
  else if s.final_answer.getD "" = "" then
    { s with final_answer := some (final_summary s) }
  else s

/-- The fixed action→node table of `AgentGraph._route_after_execution`. -/
def action_mapping (a : String) : Option String :=
  if a = "research" then some "research"
  else if a = "analyze" then some "analysis"
  else if a = "code_gen" then some "code_generation"
  else if a = "validate" then some "validation"
  else if a = "summarize" then some "summarization"
  else if a = "execute" then some "execution"
  else if a = "complete" then some "completion"
  else none

/-- `AgentGraph._route_after_execution`: map
`context.get("next_action", "complete")` through the table, defaulting to
`"completion"`. -/
def route_after_execution (s : AgentState) : String :=
  (action_mapping (s.context.next_action.getD "complete")).getD "completion"

/-- `AgentGraph._route_to_next_step`: request another dispatch pass while
steps remain, else fall through to completion. -/
def route_to_next_step (s : AgentState) : String :=
  if cursorOf s < planLenInt s then "execute" else "complete"

/-- Python substring membership `needle in hay` over character lists. -/
def isSubList (needle hay : List Char) : Bool :=
  (List.range (hay.length + 1)).any (fun i => needle.isPrefixOf (hay.drop i))

/-- `needle in hay` for strings, as used by the studio router heuristic. -/
def containsSub (hay needle : String) : Bool := isSubList needle.data hay.data

/-- `content.lower()`. -/
def lowerStr (s : String) : String := String.map Char.toLower s

/-- `len(content.split())`: whitespace-separated word count. -/
def wordCount (s : String) : Nat :=
  ((s.split Char.isWhitespace).filter (fun w => w ≠ "")).length

/-- The conversational trigger list of `studio_app.route_after_execution`. -/
def conversational_triggers : List String :=
  ["hello", "hi", "hey", "greetings",
   "thanks", "thank you", "appreciate",
   "what", "how", "why", "when", "where", "who",
   "can you", "could you", "would you", "please", "help",
   "tell me", "explain", "describe", "show me",
   "i want", "i need", "i\x27m looking", "looking for"]

/-- The complex-task indicator list of `studio_app.route_after_execution`. -/
def complex_task_indicators : List String :=
  ["research", "analyze", "analysis", "code", "generate", "create",
   "build", "develop", "write code", "program", "algorithm",
   "data analysis", "calculate", "compute", "process data",
   "mcp", "server", "database", "query", "search database"]

/-- The action→node table of `studio_app.route_after_execution` — note it has
no `"execute"` key and carries a `"conversation"` entry. -/
def studio_action_mapping (a : String) : Option String :=
  if a = "research" then some "research"
  else if a = "analyze" then some "analysis"
  else if a = "code_gen" then some "code_generation"
  else if a = "validate" then some "validation"
  else if a = "summarize" then some "summarization"
  else if a = "conversation" then some "conversation"
  else if a = "complete" then some "completion"
  else none

/-- `studio_app.route_after_execution` (the enhanced router): a keyword
heuristic on the latest message object may preempt the table and return
`"conversation"`; otherwise the signal goes through `studio_action_mapping`,
defaulting to `"conversation"`. -/
def route_after_execution_studio (s : AgentState) : String :=
  let next_action := s.context.next_action.getD "complete"
  let heuristic : Option String :=
    match s.messages.getLast? with
    | some (Msg.obj _ rawContent) =>
      let content := lowerStr rawContent
      let hasConv := conversational_triggers.any (fun t => containsSub content t)
      let hasComplex := complex_task_indicators.any (fun t => containsSub content t)
      let isFollowUp := 2 < s.messages.length
      if hasConv && !hasComplex then some "conversation"
      else if wordCount content < 15 && hasConv then some "conversation"
      else if isFollowUp && !hasComplex then some "conversation"
      else none
    | _ => none
  match heuristic with
  | some r => r
  | none => (studio_action_mapping next_action).getD "conversation"

/-- The nodes of the base graph built by `AgentGraph._build_graph`, plus the
terminal `done` marker for `END` and `error` for a run aborted by an
exception escaping the graph machinery (caught by `AgentGraph.run`, which
returns a failure record instead of streaming on). -/
inductive GNode where
  | planning | execution | research | analysis | code_generation
  | validation | summarization | completion | done | error
deriving DecidableEq

/-- The path map of the conditional edges leaving `execution`
(`agent_graph.py` lines 50–58).  Its keys are **action names**
(`"execute"`, `"analyze"`, `"code_gen"`, …), not the node names that
`_route_after_execution` returns; LangGraph resolves the router's return
value by a plain dict lookup in this map (`ends[r]`), so a missing key
(`none` here) raises `KeyError` at runtime. -/
def execPathMap : String → Option GNode
  | "execute" => some .execution
  | "research" => some .research
  | "analyze" => some .analysis
  | "code_gen" => some .code_generation
  | "validate" => some .validation
  | "summarize" => some .summarization
  | "complete" => some .completion
  | _ => none

/-- The path map of the conditional edges leaving each action node
(`agent_graph.py` lines 66–69), with the same strict-lookup semantics. -/
def actionPathMap : String → Option GNode
  | "execute" => some .execution
  | "complete" => some .completion
  | _ => none

/-- The body transforms of the five specialised action nodes
(`research_node`, `analysis_node`, `code_generation_node`, `validation_node`,
`summarization_node`).  The termination theorem holds for arbitrary
behaviours of these nodes, so they are universally quantified parameters. -/
structure ActionNodes where
  research : AgentState → AgentState
  analysis : AgentState → AgentState
  code_generation : AgentState → AgentState
  validation : AgentState → AgentState
  summarization : AgentState → AgentState

/-- The conditional edges leaving an action node: `_route_to_next_step`
resolved through `actionPathMap`; a missing key would raise `KeyError` and
abort the run (`_route_to_next_step` only returns the two keys, so this
lookup never misses). -/
def routeAction (s : AgentState) : GNode × AgentState :=
  (match actionPathMap (route_to_next_step s) with
   | some n => n
   | none => .error, s)

/-- One transition of the base graph of `AgentGraph._build_graph`:
`START → planning`, `planning → execution`, conditional edges from
`execution` resolved by looking `_route_after_execution`'s return value up
in `execPathMap` (a missing key is LangGraph's `KeyError`: the stream
aborts into `AgentGraph.run`'s `except`, modelled by the absorbing `error`
node), conditional edges from each action node resolved likewise through
`actionPathMap`, and `completion → END`.  Dispatcher pass `t` consumes
oracle `os t`. -/
def graphStep (po : PlanOracle) (os : Nat → ExecOracle) (acts : ActionNodes)
    (t : Nat) (c : GNode × AgentState) : GNode × AgentState :=
  match c with
  | (.planning, s) => (.execution, planning_node po s)
  | (.execution, s) =>
    let s2 := execution_node (os t) s
    (match execPathMap (route_after_execution s2) with
     | some n => n
     | none => .error, s2)
  | (.research, s) => routeAction (acts.research s)
  | (.analysis, s) => routeAction (acts.analysis s)
  | (.code_generation, s) => routeAction (acts.code_generation s)
  | (.validation, s) => routeAction (acts.validation s)
  | (.summarization, s) => routeAction (acts.summarization s)
  | (.completion, s) => (.done, completion_node s)
  | (.done, s) => (.done, s)
  | (.error, s) => (.error, s)

/-- The run of the base graph from an initial state: node and state after
`t` transitions, starting at the planning node. -/
def run (po : PlanOracle) (os : Nat → ExecOracle) (acts : ActionNodes)
    (s0 : AgentState) : Nat → GNode × AgentState
  | 0 => (.planning, s0)
  | t + 1 => graphStep po os acts t (run po os acts s0 t)

/-- A successful tool envelope, for concrete evaluations. -/
def okResult : ToolResult :=
  { tool_name := "t", success := true, result := "R", error := none }

/-- A failed tool envelope (e.g. `web_search` without a `TAVILY_API_KEY`). -/
def failResult : ToolResult :=
  { tool_name := "web_search", success := false, result := "",
    error := some "TAVILY_API_KEY not found in environment" }

/-- An oracle on which every capability call succeeds. -/
def okOracle : ExecOracle :=
  { webSearch := fun _ => .ok okResult,
    analyzeData := fun _ _ => .ok okResult,
    validateInput := .ok okResult,
    generateCode := fun _ => .ok okResult,
    mcpConfigured := true,
    timestamp := "T" }

/-- An oracle whose web search returns an unsuccessful envelope. -/
def searchFailOracle : ExecOracle :=
  { okOracle with webSearch := fun _ => .ok failResult }

/-- An oracle on which every capability call raises `"boom"`. -/
def raiseOracle : ExecOracle :=
  { webSearch := fun _ => .exc "boom",
    analyzeData := fun _ _ => .exc "boom",
    validateInput := .exc "boom",
    generateCode := fun _ => .exc "boom",
    mcpConfigured := true,
    timestamp := "T" }

/-- The empty context dict. -/
def ctx0 : Ctx :=
  { execution_plan := none, current_step := none, next_action := none,
    conversation_ready := false, mcp_results := none,
    validation_results := none, generated_code := none }

/-- A concrete research step. -/
def step1 : Step :=
  { step := 1, action := "research", description := "Gather information",
    tools_needed := ["web_search"] }

/-- A concrete analysis step. -/
def step2 : Step :=
  { step := 2, action := "analyze", description := "Analyze findings",
    tools_needed := ["analyze_data"] }

/-- A two-step research-then-analyze plan. -/
def plan2 : Plan :=
  { steps := [step1, step2],
    expected_outcome := "Task completion", success_criteria := [], risks := [] }

/-- A fresh state as built by `AgentGraph._initialize_state`. -/
def state0 : AgentState :=
  { messages := [], current_task := some "task", task_history := ["task"],
    research_results := [], analysis_results := [], final_answer := none,
    tools_used := [], iteration_count := 0, max_iterations := 10,
    error_log := [], context := ctx0 }

/-- `state0` right after a planning pass installed `plan2`. -/
def stateWithPlan : AgentState :=
  { state0 with
    context := { ctx0 with execution_plan := some plan2, current_step := some 0 } }

/-- `stateWithPlan` after both steps have been dispatched. -/
def stateDone : AgentState :=
  { state0 with
    context := { ctx0 with execution_plan := some plan2, current_step := some 2 } }

/-- A fresh state whose iteration budget is already exhausted. -/
def stateExhausted : AgentState :=
  { state0 with iteration_count := 10 }

/-- A state marked as a completed conversational turn. -/
def stateConv : AgentState :=
  { state0 with context := { ctx0 with conversation_ready := true } }

/-- A state carrying the `execute` signal and no messages (so the studio
heuristic cannot fire). -/
def state7 : AgentState :=
  { state0 with context := { ctx0 with next_action := some "execute" } }

/-- A state carrying the `complete` signal. -/
def stateComplete : AgentState :=
  { state0 with context := { ctx0 with next_action := some "complete" } }

/-- The identity transforms, one admissible instantiation of the specialised
action nodes. -/
def idActionNodes : ActionNodes :=
  { research := id, analysis := id, code_generation := id,
    validation := id, summarization := id }

theorem CallResult.isOkB_ok {c : CallResult} (h : c.isOkB = true) :
    ∃ r, c = .ok r := by
  cases c with
  | ok r => exact ⟨r, rfl⟩
  | exc e => simp [CallResult.isOkB] at h

theorem execute_research_step_ok {o : ExecOracle} {s : AgentState} {st : Step}
    {s' : AgentState} (h : execute_research_step o s st = .ok s') :
    s'.context = s.context := by
  unfold execute_research_step at h
  cases hw : o.webSearch st.description <;> simp only [hw] at h
  case ok r =>
    split at h <;> (simp only [HandlerOutcome.ok.injEq] at h; subst h; rfl)
  case exc e => exact HandlerOutcome.noConfusion h

theorem execute_analysis_step_ok {o : ExecOracle} {s : AgentState} {st : Step}
    {s' : AgentState} (h : execute_analysis_step o s st = .ok s') :
    s'.context = s.context := by
  unfold execute_analysis_step at h
  cases hL : s.research_results.getLast? <;> simp only [hL] at h
  case none => simp only [HandlerOutcome.ok.injEq] at h; subst h; rfl
  case some latest =>
    cases ha : o.analyzeData latest.results ("step_" ++ toString st.step ++ "_analysis") <;>
      simp only [ha] at h
    case ok r =>
      split at h <;> (simp only [HandlerOutcome.ok.injEq] at h; subst h; rfl)
    case exc e => exact HandlerOutcome.noConfusion h

theorem execute_mcp_step_ok {o : ExecOracle} {s : AgentState} {st : Step}
    {s' : AgentState} (h : execute_mcp_step o s st = .ok s') :
    s'.context.current_step = s.context.current_step ∧
    s'.context.execution_plan = s.context.execution_plan := by
  unfold execute_mcp_step at h
  split at h <;> (simp only [HandlerOutcome.ok.injEq] at h; subst h; exact ⟨rfl, rfl⟩)

theorem execute_validation_step_ok {o : ExecOracle} {s : AgentState} {st : Step}
    {s' : AgentState} (h : execute_validation_step o s st = .ok s') :
    s'.context.current_step = s.context.current_step ∧
    s'.context.execution_plan = s.context.execution_plan := by
  unfold execute_validation_step at h
  cases hv : o.validateInput <;> simp only [hv] at h
  case ok r =>
    split at h <;> (simp only [HandlerOutcome.ok.injEq] at h; subst h; exact ⟨rfl, rfl⟩)
  case exc e => exact HandlerOutcome.noConfusion h

theorem execute_code_generation_step_ok {o : ExecOracle} {s : AgentState} {st : Step}
    {s' : AgentState} (h : execute_code_generation_step o s st = .ok s') :
    s'.context.current_step = s.context.current_step ∧
    s'.context.execution_plan = s.context.execution_plan := by
  unfold execute_code_generation_step at h
  cases hg : o.generateCode st.description <;> simp only [hg] at h
  case ok r =>
    split at h <;> (simp only [HandlerOutcome.ok.injEq] at h; subst h; exact ⟨rfl, rfl⟩)
  case exc e => exact HandlerOutcome.noConfusion h

theorem execute_generic_step_ok {s : AgentState} {st : Step}
    {s' : AgentState} (h : execute_generic_step s st = .ok s') :
    s'.context = s.context := by
  unfold execute_generic_step at h
  simp only [HandlerOutcome.ok.injEq] at h; subst h; rfl

/-- A successful dispatch never moves the step cursor or replaces the plan:
only `execution_node` itself advances the cursor. -/
theorem dispatch_ok_preserves {o : ExecOracle} {s : AgentState} {st : Step}
    {s' : AgentState} (h : dispatchStep o s st = .ok s') :
    s'.context.current_step = s.context.current_step ∧
    s'.context.execution_plan = s.context.execution_plan := by
  unfold dispatchStep at h
  split_ifs at h
  · rw [execute_research_step_ok h]; exact ⟨rfl, rfl⟩
  · rw [execute_analysis_step_ok h]; exact ⟨rfl, rfl⟩
  · exact execute_mcp_step_ok h
  · exact execute_validation_step_ok h
  · exact execute_code_generation_step_ok h
  · rw [execute_generic_step_ok h]; exact ⟨rfl, rfl⟩

/-- When the oracle answers every call with an envelope, no dispatch raises. -/
theorem dispatch_no_raise {o : ExecOracle} (ho : NoRaise o) (s : AgentState)
    (st : Step) : ∃ s', dispatchStep o s st = .ok s' := by
  obtain ⟨hw, ha, hv, hg⟩ := ho
  unfold dispatchStep
  split_ifs
  · unfold execute_research_step
    obtain ⟨r, hr⟩ := CallResult.isOkB_ok (hw st.description)
    simp only [hr]
    split <;> exact ⟨_, rfl⟩
  · unfold execute_analysis_step
    cases hL : s.research_results.getLast? with
    | none => simp only [hL]; exact ⟨_, rfl⟩
    | some latest =>
      simp only [hL]
      obtain ⟨r, hr⟩ := CallResult.isOkB_ok
        (ha latest.results ("step_" ++ toString st.step ++ "_analysis"))
      simp only [hr]
      split <;> exact ⟨_, rfl⟩
  · unfold execute_mcp_step
    split <;> exact ⟨_, rfl⟩
  · unfold execute_validation_step
    obtain ⟨r, hr⟩ := CallResult.isOkB_ok hv
    simp only [hr]
    split <;> exact ⟨_, rfl⟩
  · unfold execute_code_generation_step
    obtain ⟨r, hr⟩ := CallResult.isOkB_ok (hg st.description)
    simp only [hr]
    split <;> exact ⟨_, rfl⟩
  · exact ⟨_, rfl⟩

theorem pyIndex_of_lt {l : List Step} {i : Int} (h0 : 0 ≤ i)
    (h1 : i < (l.length : Int)) : ∃ st, pyIndex l i = some st := by
  unfold pyIndex
  rw [if_pos h0]
  have hlt : i.toNat < l.length := by omega
  exact ⟨l.get ⟨i.toNat, hlt⟩, List.get?_eq_get hlt⟩

/-- Normal-regime behaviour of one dispatcher pass (all handler calls return
envelopes, cursor non-negative): the plan is untouched, the cursor advances
by one exactly while steps remain, and the emitted signal is `complete` iff
the advanced cursor has reached the end of the plan. -/
theorem execution_node_step {o : ExecOracle} (ho : NoRaise o) {s : AgentState}
    (h0 : 0 ≤ cursorOf s) :
    (execution_node o s).context.execution_plan = s.context.execution_plan ∧
    cursorOf (execution_node o s) =
      (if cursorOf s < planLenInt s then cursorOf s + 1 else cursorOf s) ∧
    (execution_node o s).context.next_action =
      some (if planLenInt s ≤ cursorOf s + 1 then "complete" else "execute") := by
  simp only [cursorOf, planLenInt, planLenNat] at h0 ⊢
  simp only [execution_node]
  split
  · rename_i h1
    refine ⟨rfl, ?_, ?_⟩
    · rw [if_neg (by omega)]
      rfl
    · rw [if_pos (by omega)]
      rfl
  · rename_i h1
    split
    · rename_i hpi
      exfalso
      obtain ⟨st, hst⟩ :=
        pyIndex_of_lt (l := (s.context.execution_plan.getD Plan.empty).steps) h0 (by omega)
      rw [hst] at hpi
      exact Option.noConfusion hpi
    · rename_i st hpi
      split
      · rename_i e hd
        exfalso
        obtain ⟨s2, hok⟩ := dispatch_no_raise ho _ st
        rw [hok] at hd
        exact HandlerOutcome.noConfusion hd
      · rename_i s2 hd
        have hctx := dispatch_ok_preserves hd
        split
        · rename_i h2
          refine ⟨?_, ?_, ?_⟩
          · simp only [setNextAction, setCurrentStep]
            rw [hctx.2]
            rfl
          · rw [if_pos (by omega)]
            simp [setNextAction, setCurrentStep]
          · rfl
        · rename_i h2
          refine ⟨?_, ?_, ?_⟩
          · simp only [setNextAction, setCurrentStep]
            rw [hctx.2]
            rfl
          · rw [if_pos (by omega)]
            simp [setNextAction, setCurrentStep]
          · rfl

/-- Every dispatcher pass, under any oracle (handlers may raise), either
emits the `complete` signal or advances the cursor by one towards the end of
an unchanged plan while emitting `execute`. -/
theorem execution_node_cases (o : ExecOracle) (s : AgentState) :
    (execution_node o s).context.next_action = some "complete" ∨
    ((execution_node o s).context.next_action = some "execute" ∧
     (execution_node o s).context.execution_plan = s.context.execution_plan ∧
     cursorOf (execution_node o s) = cursorOf s + 1 ∧
     cursorOf s + 1 < planLenInt s) := by
  simp only [cursorOf, planLenInt, planLenNat]
  simp only [execution_node]
  split
  · left; rfl
  · rename_i h1
    split
    · left; rfl
    · rename_i st hpi
      split
      · left; rfl
      · rename_i s2 hd
        have hctx := dispatch_ok_preserves hd
        split
        · left; rfl
        · rename_i h2
          right
          refine ⟨rfl, ?_, ?_, by omega⟩
          · simp only [setNextAction, setCurrentStep]
            rw [hctx.2]
            rfl
          · simp [setNextAction, setCurrentStep]

theorem route_after_execution_complete {s : AgentState}
    (h : s.context.next_action = some "complete") :
    route_after_execution s = "completion" := by
  unfold route_after_execution
  rw [h]
  rfl

theorem route_after_execution_execute {s : AgentState}
    (h : s.context.next_action = some "execute") :
    route_after_execution s = "execution" := by
  unfold route_after_execution
  rw [h]
  rfl

theorem okOracle_no_raise : NoRaise okOracle :=
  ⟨fun _ => rfl, fun _ _ => rfl, rfl, fun _ => rfl⟩

/-- Along iterated dispatcher passes in the normal regime the plan is fixed
and the cursor climbs by one per pass until it reaches the plan length. -/
theorem execIter_spec (os : Nat → ExecOracle) (ho : ∀ n, NoRaise (os n))
    (s : AgentState) (hc : cursorOf s = 0) (N : Nat) :
    (execIter os N s).context.execution_plan = s.context.execution_plan ∧
    cursorOf (execIter os N s) = min (N : Int) (planLenInt s) := by
  induction N with
  | zero =>
    refine ⟨rfl, ?_⟩
    show cursorOf s = _
    rw [hc]
    have : (0 : Int) ≤ planLenInt s := Int.natCast_nonneg (planLenNat s)
    omega
  | succ n ih =>
    obtain ⟨hplan, hcur⟩ := ih
    have hlen : planLenInt (execIter os n s) = planLenInt s := by
      simp [planLenInt, planLenNat, hplan]
    have hnn : (0 : Int) ≤ planLenInt s := Int.natCast_nonneg (planLenNat s)
    have h0 : 0 ≤ cursorOf (execIter os n s) := by rw [hcur]; omega
    obtain ⟨hp, hc2, -⟩ := execution_node_step (ho n) h0
    refine ⟨?_, ?_⟩
    · show (execution_node (os n) (execIter os n s)).context.execution_plan = _
      rw [hp, hplan]
    · show cursorOf (execution_node (os n) (execIter os n s)) = _
      rw [hc2, hlen, hcur]
      split_ifs with h <;> (push_cast; omega)

/-- Claim C1 — Step-cursor invariant of the dispatcher: along any sequence of
dispatcher passes in the normal (non-raising) regime starting from
`current_step = 0`, the cursor stays within `[0, len(plan.steps)]`, is
monotonically non-decreasing, and after `N` passes equals
`min N (len steps)`. -/
theorem c1_cursor_invariant (os : Nat → ExecOracle) (ho : ∀ n, NoRaise (os n))
    (s : AgentState) (hc : cursorOf s = 0) :
    (∀ N, 0 ≤ cursorOf (execIter os N s) ∧
          cursorOf (execIter os N s) ≤ planLenInt s) ∧
    (∀ N, cursorOf (execIter os N s) ≤ cursorOf (execIter os (N + 1) s)) ∧
    (∀ N, cursorOf (execIter os N s) = min (N : Int) (planLenInt s)) := by
  have hmin := fun N => (execIter_spec os ho s hc N).2
  refine ⟨fun N => ?_, fun N => ?_, hmin⟩
  · rw [hmin N]
    have hnn : (0 : Int) ≤ planLenInt s := Int.natCast_nonneg (planLenNat s)
    have hNn : (0 : Int) ≤ (N : Int) := Int.natCast_nonneg N
    omega
  · rw [hmin N, hmin (N + 1)]
    have : ((N : Nat) : Int) ≤ (((N + 1 : Nat)) : Int) := by push_cast; omega
    exact min_le_min this le_rfl

/-- Witness for C1: a two-step plan, three all-successful passes, cursor ends
at `min 3 2 = 2`. -/
theorem c1_cursor_invariant_witness :
    (∀ n : Nat, NoRaise ((fun _ => okOracle) n)) ∧
    cursorOf stateWithPlan = 0 ∧
    planLenInt stateWithPlan = 2 ∧
    cursorOf (execIter (fun _ => okOracle) 3 stateWithPlan) =
      min (3 : Int) (planLenInt stateWithPlan) :=
  ⟨fun _ => okOracle_no_raise, rfl, rfl,
   (c1_cursor_invariant (fun _ => okOracle) (fun _ => okOracle_no_raise)
     stateWithPlan rfl).2.2 3⟩

/-- Claim C10 — The dispatcher writes `context["next_action"]` only to
`"execute"` or `"complete"`, for every input state and every oracle; hence
the conditional edges from the execution node can only lead back to
execution or on to completion, and the research / analysis /
code-generation / validation / summarization branches are unreachable via
the dispatcher's own signal. -/
theorem c10_dispatch_signal_closed (o : ExecOracle) (s : AgentState) :
    ((execution_node o s).context.next_action = some "execute" ∨
     (execution_node o s).context.next_action = some "complete") ∧
    (route_after_execution (execution_node o s) = "execution" ∨
     route_after_execution (execution_node o s) = "completion") := by
  rcases execution_node_cases o s with h | ⟨h, -, -, -⟩
  · exact ⟨Or.inr h, Or.inr (route_after_execution_complete h)⟩
  · exact ⟨Or.inl h, Or.inl (route_after_execution_execute h)⟩

/-- Claim C5 — Dispatcher step contract: past-the-end cursor sets the complete
signal and mutates nothing else; a dispatched step advances the cursor by
exactly one and signals complete exactly when the advanced cursor reaches
the number of steps, else execute; an exception escaping the dispatch is
appended to the error log and forces the complete signal (the cursor is not
advanced). -/
theorem c5_dispatcher_contract (o : ExecOracle) (s : AgentState) :
    (planLenInt s ≤ cursorOf s →
       execution_node o s = setNextAction s "complete") ∧
    (∀ st s2, 0 ≤ cursorOf s → cursorOf s < planLenInt s →
       pyIndex (s.context.execution_plan.getD Plan.empty).steps (cursorOf s) =
         some st →
       dispatchStep o (appendMessage s (Msg.obj "ai"
         ("Executing step " ++ toString (cursorOf s + 1) ++ ": " ++
           st.description))) st = .ok s2 →
       cursorOf (execution_node o s) = cursorOf s + 1 ∧
       (execution_node o s).context.next_action =
         some (if cursorOf s + 1 = planLenInt s then "complete" else "execute")) ∧
    (∀ st e, cursorOf s < planLenInt s →
       pyIndex (s.context.execution_plan.getD Plan.empty).steps (cursorOf s) =
         some st →
       dispatchStep o (appendMessage s (Msg.obj "ai"
         ("Executing step " ++ toString (cursorOf s + 1) ++ ": " ++
           st.description))) st = .raised e →
       (execution_node o s).error_log =
         s.error_log ++ ["Execution node error: " ++ e] ∧
       (execution_node o s).context.next_action = some "complete" ∧
       (execution_node o s).context.current_step = s.context.current_step) := by
  refine ⟨?_, ?_, ?_⟩
  · intro h
    simp only [planLenInt, planLenNat, cursorOf] at h
    simp only [execution_node]
    rw [if_pos h]
  · intro st s2 h0 hlt hpi hd
    simp only [planLenInt, planLenNat, cursorOf] at h0 hlt hpi hd ⊢
    simp only [execution_node]
    rw [if_neg (by omega)]
    simp only [hpi, hd]
    constructor
    · split <;> simp [setNextAction, setCurrentStep]
    · split
      · rename_i h2
        rw [if_pos (by omega)]
        rfl
      · rename_i h2
        rw [if_neg (by omega)]
        rfl
  · intro st e hlt hpi hd
    simp only [planLenInt, planLenNat, cursorOf] at hlt hpi hd ⊢
    simp only [execution_node]
    rw [if_neg (by omega)]
    simp only [hpi, hd]
    exact ⟨rfl, rfl, rfl⟩

/-- Witness for C5: at a past-the-end cursor the dispatcher only sets the
complete signal, and a raising dispatch on the first step of a fresh plan
logs the error and completes without advancing the cursor. -/
theorem c5_dispatcher_contract_witness :
    (planLenInt stateDone ≤ cursorOf stateDone ∧
     execution_node okOracle stateDone = setNextAction stateDone "complete") ∧
    ((execution_node raiseOracle stateWithPlan).error_log =
       stateWithPlan.error_log ++ ["Execution node error: boom"] ∧
     (execution_node raiseOracle stateWithPlan).context.next_action =
       some "complete" ∧
     (execution_node raiseOracle stateWithPlan).context.current_step =
       stateWithPlan.context.current_step) :=
  ⟨⟨by decide, (c5_dispatcher_contract okOracle stateDone).1 (by decide)⟩,
   (c5_dispatcher_contract raiseOracle stateWithPlan).2.2 step1 "boom"
     (by decide) (by decide) (by decide)⟩

/-- Deriving the task from the conversation touches only `current_task` and
`task_history`. -/
theorem extract_task_frame (s : AgentState) :
    (extract_task s).context = s.context ∧
    (extract_task s).error_log = s.error_log ∧
    (extract_task s).messages = s.messages ∧
    (extract_task s).iteration_count = s.iteration_count ∧
    (extract_task s).final_answer = s.final_answer := by
  unfold extract_task
  cases last_human_content s.messages with
  | none => exact ⟨rfl, rfl, rfl, rfl, rfl⟩
  | some c => exact ⟨rfl, rfl, rfl, rfl, rfl⟩

/-- Claim C3 — Fallback determinism of the planner: below the iteration budget,
a model response that fails to parse installs exactly the fixed four-step
fallback plan (research, analyze, execute, validate in that order); an
exception during planning — whether it is raised before the model returns
(`exc`) or by the `plan["steps"]` access on a parseable but malformed
response after the install (`responseNoSteps`) — leaves exactly the one-step
complete plan installed, resets the cursor to `0`, and appends exactly one
new entry to the error log. -/
theorem c3_fallback_determinism (s : AgentState)
    (h : s.iteration_count < s.max_iterations) :
    ((planning_node (.response none) s).context.execution_plan =
       some fallback_plan ∧
     fallback_plan.steps.map Step.action =
       ["research", "analyze", "execute", "validate"] ∧
     fallback_plan.steps.length = 4 ∧
     (planning_node (.response none) s).context.current_step = some 0) ∧
    (∀ e, (planning_node (.exc e) s).context.execution_plan =
        some error_fallback_plan ∧
      error_fallback_plan =
        { steps := [{ step := 1, action := "complete",
                      description := "Complete with error", tools_needed := [] }],
          expected_outcome := "Error recovery",
          success_criteria := ["Handle error gracefully"],
          risks := ["Task incomplete"] } ∧
      (planning_node (.exc e) s).context.current_step = some 0 ∧
      (planning_node (.exc e) s).error_log =
        s.error_log ++ ["Planning node error: " ++ e]) ∧
    (∀ e, (planning_node (.responseNoSteps e) s).context.execution_plan =
        some error_fallback_plan ∧
      (planning_node (.responseNoSteps e) s).context.current_step = some 0 ∧
      (planning_node (.responseNoSteps e) s).error_log =
        s.error_log ++ ["Planning node error: " ++ e]) := by
  have hni : ¬ s.max_iterations ≤ s.iteration_count := by omega
  refine ⟨⟨?_, rfl, rfl, ?_⟩, fun e => ⟨?_, rfl, ?_, ?_⟩, fun e => ⟨?_, ?_, ?_⟩⟩
  · simp only [planning_node]
    rw [if_neg hni]
    rfl
  · simp only [planning_node]
    rw [if_neg hni]
  · simp only [planning_node]
    rw [if_neg hni]
  · simp only [planning_node]
    rw [if_neg hni]
  · simp only [planning_node]
    rw [if_neg hni]
    dsimp only
    split
    · rw [(extract_task_frame s).2.1]
    · rfl
  · simp only [planning_node]
    rw [if_neg hni]
  · simp only [planning_node]
    rw [if_neg hni]
  · simp only [planning_node]
    rw [if_neg hni]
    dsimp only
    split
    · rw [(extract_task_frame s).2.1]
    · rfl

/-- Witness for C3 on a fresh state: the parse-failure plan and the one new
error-log entry of each exception path. -/
theorem c3_fallback_determinism_witness :
    state0.iteration_count < state0.max_iterations ∧
    (planning_node (.response none) state0).context.execution_plan =
      some fallback_plan ∧
    (planning_node (.exc "boom") state0).error_log =
      state0.error_log ++ ["Planning node error: boom"] ∧
    (planning_node (.responseNoSteps "\x27steps\x27") state0).error_log =
      state0.error_log ++ ["Planning node error: \x27steps\x27"] :=
  ⟨by decide, ((c3_fallback_determinism state0 (by decide)).1).1,
   ((c3_fallback_determinism state0 (by decide)).2.1 "boom").2.2.2,
   ((c3_fallback_determinism state0 (by decide)).2.2 "\x27steps\x27").2.2⟩

/-- Claim C4 — Max-iterations shortcut: once `iteration_count` has reached
`max_iterations`, the planner writes the fixed final answer, leaves
`context["execution_plan"]` untouched (in particular unset when it was
unset), and does not consult the model: the result is independent of the
planning oracle. -/
theorem c4_max_iterations_shortcut (o : PlanOracle) (s : AgentState)
    (h : s.max_iterations ≤ s.iteration_count) :
    (planning_node o s).final_answer =
      some "Maximum iterations reached. Task incomplete." ∧
    (planning_node o s).context.execution_plan = s.context.execution_plan ∧
    (s.context.execution_plan = none →
       (planning_node o s).context.execution_plan = none) ∧
    (∀ o2, planning_node o2 s = planning_node o s) := by
  have hpres : (planning_node o s).context = s.context := by
    simp only [planning_node]
    rw [if_pos h]
    dsimp only
    split
    · rw [(extract_task_frame s).1]
    · rfl
  refine ⟨?_, ?_, ?_, ?_⟩
  · simp only [planning_node]
    rw [if_pos h]
  · rw [hpres]
  · intro h2
    rw [hpres, h2]
  · intro o2
    simp only [planning_node, if_pos h]

/-- Witness for C4 at an exhausted budget: the fixed answer appears, the plan
slot stays unset, and the parse-failure and exception oracles agree. -/
theorem c4_max_iterations_shortcut_witness :
    stateExhausted.max_iterations ≤ stateExhausted.iteration_count ∧
    (planning_node (.response none) stateExhausted).final_answer =
      some "Maximum iterations reached. Task incomplete." ∧
    (stateExhausted.context.execution_plan = none →
      (planning_node (.response none) stateExhausted).context.execution_plan =
        none) ∧
    planning_node (.exc "boom") stateExhausted =
      planning_node (.response none) stateExhausted :=
  ⟨by decide,
   (c4_max_iterations_shortcut (.response none) stateExhausted (by decide)).1,
   (c4_max_iterations_shortcut (.response none) stateExhausted (by decide)).2.2.1,
   (c4_max_iterations_shortcut (.response none) stateExhausted (by decide)).2.2.2
     (.exc "boom")⟩

/-- Claim C8, counterexample — the claim says every non-shortcut planning
invocation, including the one in which the model call raises, increments
`iteration_count` by exactly one and appends a planner message; on a fresh
state (iteration budget not exhausted) the pre-response exception invocation
leaves both the iteration counter and the conversation unchanged, and the
invocation whose response is the parseable-but-malformed `"{}"` (whose
`plan["steps"]` access raises `KeyError` after the install) increments the
counter yet appends no planner message. -/
theorem c8_counterexample :
    state0.iteration_count < state0.max_iterations ∧
    (planning_node (.exc "boom") state0).iteration_count =
      state0.iteration_count ∧
    (planning_node (.exc "boom") state0).messages = state0.messages ∧
    (planning_node (.responseNoSteps "\x27steps\x27") state0).iteration_count =
      state0.iteration_count + 1 ∧
    (planning_node (.responseNoSteps "\x27steps\x27") state0).messages =
      state0.messages ∧
    state0.iteration_count + 1 ≠ state0.iteration_count := by
  refine ⟨by decide, by decide, by decide, by decide, by decide, by decide⟩

/-- Claim C8, amended — Planner side-effect invariant, split over the three
non-shortcut outcomes of the source `try`: an invocation in which the model
returns a response with a well-shaped plan (or an unparseable response,
yielding the fixed fallback plan) increments `iteration_count` by exactly
one, installs that plan, resets the cursor to `0` and appends exactly one
planner message; an invocation whose response parses but whose
`plan["steps"]` access raises after the install (e.g. response `"{}"`) also
increments `iteration_count` by exactly one and resets the cursor, but ends
with the error fallback plan, one new error-log entry and **no** planner
message; and the invocation in which the model call itself raises leaves
`iteration_count` and the conversation unchanged while installing the error
fallback plan with cursor `0`. -/
theorem c8_planner_side_effects (s : AgentState)
    (h : s.iteration_count < s.max_iterations) :
    (∀ p, (planning_node (.response p) s).iteration_count =
        s.iteration_count + 1 ∧
      (planning_node (.response p) s).context.execution_plan =
        some (p.getD fallback_plan) ∧
      (planning_node (.response p) s).context.current_step = some 0 ∧
      (planning_node (.response p) s).messages =
        s.messages ++ [Msg.obj "ai" (plan_message (p.getD fallback_plan))]) ∧
    (∀ e, (planning_node (.responseNoSteps e) s).iteration_count =
        s.iteration_count + 1 ∧
      (planning_node (.responseNoSteps e) s).messages = s.messages ∧
      (planning_node (.responseNoSteps e) s).context.execution_plan =
        some error_fallback_plan ∧
      (planning_node (.responseNoSteps e) s).context.current_step = some 0 ∧
      (planning_node (.responseNoSteps e) s).error_log =
        s.error_log ++ ["Planning node error: " ++ e]) ∧
    (∀ e, (planning_node (.exc e) s).iteration_count = s.iteration_count ∧
      (planning_node (.exc e) s).messages = s.messages ∧
      (planning_node (.exc e) s).context.execution_plan =
        some error_fallback_plan ∧
      (planning_node (.exc e) s).context.current_step = some 0) := by
  have hni : ¬ s.max_iterations ≤ s.iteration_count := by omega
  refine ⟨fun p => ⟨?_, ?_, ?_, ?_⟩, fun e => ⟨?_, ?_, ?_, ?_, ?_⟩,
    fun e => ⟨?_, ?_, ?_, ?_⟩⟩
  · simp only [planning_node]
    rw [if_neg hni]
  · simp only [planning_node]
    rw [if_neg hni]
  · simp only [planning_node]
    rw [if_neg hni]
  · simp only [planning_node]
    rw [if_neg hni]
    dsimp only
    split
    · rw [(extract_task_frame s).2.2.1]
    · rfl
  · simp only [planning_node]
    rw [if_neg hni]
  · simp only [planning_node]
    rw [if_neg hni]
    dsimp only
    split
    · rw [(extract_task_frame s).2.2.1]
    · rfl
  · simp only [planning_node]
    rw [if_neg hni]
  · simp only [planning_node]
    rw [if_neg hni]
  · simp only [planning_node]
    rw [if_neg hni]
    dsimp only
    split
    · rw [(extract_task_frame s).2.1]
    · rfl
  · simp only [planning_node]
    rw [if_neg hni]
    dsimp only
    split
    · rw [(extract_task_frame s).2.2.2.1]
    · rfl
  · simp only [planning_node]
    rw [if_neg hni]
    dsimp only
    split
    · rw [(extract_task_frame s).2.2.1]
    · rfl
  · simp only [planning_node]
    rw [if_neg hni]
  · simp only [planning_node]
    rw [if_neg hni]

/-- Witness for C8 (amended) on a fresh state: the parse-failure response,
the malformed-but-parseable response, and the pre-response exception. -/
theorem c8_planner_side_effects_witness :
    state0.iteration_count < state0.max_iterations ∧
    (planning_node (.response none) state0).iteration_count =
      state0.iteration_count + 1 ∧
    (planning_node (.response none) state0).messages =
      state0.messages ++ [Msg.obj "ai" (plan_message fallback_plan)] ∧
    (planning_node (.responseNoSteps "\x27steps\x27") state0).iteration_count =
      state0.iteration_count + 1 ∧
    (planning_node (.responseNoSteps "\x27steps\x27") state0).messages =
      state0.messages ∧
    (planning_node (.exc "boom") state0).iteration_count =
      state0.iteration_count :=
  ⟨by decide,
   ((c8_planner_side_effects state0 (by decide)).1 none).1,
   ((c8_planner_side_effects state0 (by decide)).1 none).2.2.2,
   ((c8_planner_side_effects state0 (by decide)).2.1 "\x27steps\x27").1,
   ((c8_planner_side_effects state0 (by decide)).2.1 "\x27steps\x27").2.1,
   ((c8_planner_side_effects state0 (by decide)).2.2 "boom").1⟩

/-- Claim C9, counterexample — the claim says the completion stage always
appends a terminal audit message to the conversation; on a fresh
non-conversational state with no final answer the conversation is returned
unchanged, so no audit message is ever appended. -/
theorem c9_counterexample :
    state0.context.conversation_ready = false ∧
    state0.final_answer = none ∧
    (completion_node state0).messages = state0.messages ∧
    ¬ ∃ m, (completion_node state0).messages = state0.messages ++ [m] := by
  refine ⟨rfl, rfl, rfl, ?_⟩
  rintro ⟨m, hm⟩
  rw [show (completion_node state0).messages = ([] : List Msg) from rfl] at hm
  simp [state0] at hm

/-- Claim C9, amended — Completion stage contract: the node is total (never
raises), returns a completed conversational turn unchanged, fills an unset
final answer with the deterministic summary built from the research count,
analysis flag, tools used, iteration count and error count with no external
call — and appends no message to the conversation. -/
theorem c9_completion_contract (s : AgentState) :
    (s.context.conversation_ready = true → completion_node s = s) ∧
    (s.context.conversation_ready = false → s.final_answer = none →
       completion_node s = { s with final_answer := some (final_summary s) }) ∧
    (completion_node s).messages = s.messages := by
  refine ⟨?_, ?_, ?_⟩
  · intro h
    unfold completion_node
    rw [if_pos h]
  · intro h h2
    unfold completion_node
    rw [if_neg (by simp [h]), h2]
    rfl
  · unfold completion_node
    split
    · rfl
    · split <;> rfl

/-- Witness for C9 (amended): a conversational turn passes through unchanged
and a fresh state receives the synthetic summary. -/
theorem c9_completion_contract_witness :
    (stateConv.context.conversation_ready = true ∧
     completion_node stateConv = stateConv) ∧
    (state0.context.conversation_ready = false ∧ state0.final_answer = none ∧
     completion_node state0 =
       { state0 with final_answer := some (final_summary state0) }) :=
  ⟨⟨rfl, (c9_completion_contract stateConv).1 rfl⟩,
   ⟨rfl, rfl, (c9_completion_contract state0).2.1 rfl rfl⟩⟩

/-- Claim C6, counterexample — the claim says a handler whose external call
returns an unsuccessful envelope appends exactly one entry to the error log;
dispatching the research step of a fresh plan while the web search returns
`success = false` leaves the error log exactly as it was (zero new entries);
the failure is skipped silently. -/
theorem c6_counterexample :
    searchFailOracle.webSearch step1.description = CallResult.ok failResult ∧
    failResult.success = false ∧
    (execution_node searchFailOracle stateWithPlan).error_log =
      stateWithPlan.error_log ∧
    (execution_node searchFailOracle stateWithPlan).error_log.length ≠
      stateWithPlan.error_log.length + 1 := by
  refine ⟨rfl, rfl, by decide, by decide⟩

/-- Claim C6, amended — Error isolation of action handlers: a handler whose
external call returns an unsuccessful envelope returns the state completely
unchanged — every accumulator (`research_results`, `analysis_results`,
`generated_code`, `validation_results`) is untouched and **no** entry is
appended to `error_log` — and it does not raise. -/
theorem c6_error_isolation (o : ExecOracle) (s : AgentState) (st : Step) :
    (∀ r, o.webSearch st.description = .ok r → r.success = false →
       execute_research_step o s st = .ok s) ∧
    (∀ latest r, s.research_results.getLast? = some latest →
       o.analyzeData latest.results
         ("step_" ++ toString st.step ++ "_analysis") = .ok r →
       r.success = false → execute_analysis_step o s st = .ok s) ∧
    (∀ r, o.validateInput = .ok r → r.success = false →
       execute_validation_step o s st = .ok s) ∧
    (∀ r, o.generateCode st.description = .ok r → r.success = false →
       execute_code_generation_step o s st = .ok s) := by
  refine ⟨?_, ?_, ?_, ?_⟩
  · intro r hr hs
    unfold execute_research_step
    simp only [hr]
    rw [if_neg (by simp [hs])]
  · intro latest r hL hr hs
    unfold execute_analysis_step
    simp only [hL, hr]
    rw [if_neg (by simp [hs])]
  · intro r hr hs
    unfold execute_validation_step
    simp only [hr]
    rw [if_neg (by simp [hs])]
  · intro r hr hs
    unfold execute_code_generation_step
    simp only [hr]
    rw [if_neg (by simp [hs])]

/-- Witness for C6 (amended): the research handler under a failed web search
returns the fresh state untouched. -/
theorem c6_error_isolation_witness :
    searchFailOracle.webSearch step1.description = CallResult.ok failResult ∧
    failResult.success = false ∧
    execute_research_step searchFailOracle state0 step1 = .ok state0 :=
  ⟨rfl, rfl,
   (c6_error_isolation searchFailOracle state0 step1).1 failResult rfl rfl⟩

theorem action_mapping_mem (a : String) :
    (action_mapping a).getD "completion" ∈
      ["research", "analysis", "code_generation", "validation",
       "summarization", "execution", "completion"] := by
  unfold action_mapping
  split_ifs <;> simp

theorem studio_action_mapping_mem (a : String) :
    (studio_action_mapping a).getD "conversation" ∈
      ["research", "analysis", "code_generation", "validation",
       "summarization", "conversation", "completion"] := by
  unfold studio_action_mapping
  split_ifs <;> simp

/-- The studio router either returns `"conversation"` from its heuristic or
falls through to its table lookup with the `"conversation"` default. -/
theorem studio_route_shape (s : AgentState) :
    route_after_execution_studio s = "conversation" ∨
    route_after_execution_studio s =
      (studio_action_mapping (s.context.next_action.getD "complete")).getD
        "conversation" := by
  unfold route_after_execution_studio
  cases hL : s.messages.getLast? with
  | none => right; rfl
  | some m =>
    cases m with
    | dict r c => right; rfl
    | obj t c =>
      dsimp only
      split_ifs <;> first | (left; rfl) | (right; rfl)

/-- Claim C7, counterexample — the claim says both router variants map the
`execute` signal to the execution stage and default to completion on
unmapped or missing signals; the enhanced (studio) router's table has no
`execute` entry and its default is the conversation stage, so on a state
carrying the `execute` signal (with no messages, so the keyword heuristic
cannot fire) it returns `"conversation"`, neither `"execution"` nor
`"completion"`. -/
theorem c7_counterexample :
    state7.context.next_action = some "execute" ∧
    state7.messages = [] ∧
    route_after_execution_studio state7 = "conversation" ∧
    route_after_execution_studio state7 ≠ "execution" ∧
    route_after_execution_studio state7 ≠ "completion" := by
  refine ⟨rfl, rfl, by decide, by decide, by decide⟩

/-- Claim C7, amended — Router table and totality: the base router maps the
next-action signal through the fixed table (research→research,
analyze→analysis, code_gen→code_generation, validate→validation,
summarize→summarization, execute→execution, complete→completion) and
defaults to completion on unmapped or missing signals; the enhanced (studio)
variant uses a table without an `execute` entry and defaults to
`"conversation"` (so the `execute` signal routes to the conversation stage).
Both routers return a member of their declared finite stage-id set for every
constructible state, including states with no plan or no signal at all. -/
theorem c7_router_tables (s : AgentState) :
    (action_mapping "research" = some "research" ∧
     action_mapping "analyze" = some "analysis" ∧
     action_mapping "code_gen" = some "code_generation" ∧
     action_mapping "validate" = some "validation" ∧
     action_mapping "summarize" = some "summarization" ∧
     action_mapping "execute" = some "execution" ∧
     action_mapping "complete" = some "completion") ∧
    (∀ a r, s.context.next_action = some a → action_mapping a = some r →
       route_after_execution s = r) ∧
    (∀ a, s.context.next_action = some a → action_mapping a = none →
       route_after_execution s = "completion") ∧
    (s.context.next_action = none → route_after_execution s = "completion") ∧
    route_after_execution s ∈
      ["research", "analysis", "code_generation", "validation",
       "summarization", "execution", "completion"] ∧
    route_after_execution_studio s ∈
      ["research", "analysis", "code_generation", "validation",
       "summarization", "conversation", "completion"] ∧
    (s.messages = [] → s.context.next_action = some "execute" →
       route_after_execution_studio s = "conversation") := by
  refine ⟨⟨rfl, rfl, rfl, rfl, rfl, rfl, rfl⟩, ?_, ?_, ?_, ?_, ?_, ?_⟩
  · intro a r h hm
    unfold route_after_execution
    rw [h, Option.getD_some, hm, Option.getD_some]
  · intro a h hm
    unfold route_after_execution
    rw [h, Option.getD_some, hm]
    rfl
  · intro h
    unfold route_after_execution
    rw [h]
    rfl
  · exact action_mapping_mem _
  · rcases studio_route_shape s with h | h
    · rw [h]; decide
    · rw [h]; exact studio_action_mapping_mem _
  · intro h1 h2
    unfold route_after_execution_studio
    rw [h1, h2]
    rfl

/-- Witness for C7 (amended): the base router sends the `complete` signal to
completion, and the studio router sends the `execute` signal to the
conversation stage. -/
theorem c7_router_tables_witness :
    (stateComplete.context.next_action = some "complete" ∧
     action_mapping "complete" = some "completion" ∧
     route_after_execution stateComplete = "completion") ∧
    (state7.messages = [] ∧ state7.context.next_action = some "execute" ∧
     route_after_execution_studio state7 = "conversation") :=
  ⟨⟨rfl, rfl,
    (c7_router_tables stateComplete).2.1 "complete" "completion" rfl rfl⟩,
   ⟨rfl, rfl, (c7_router_tables state7).2.2.2.2.2.2 rfl rfl⟩⟩

/-- Claim C2, divergence — the claim (and the spec, and the source's own
`get_graph_visualization` docstring) say a run reaches the completion stage
within a bounded number of dispatcher passes; but `_route_after_execution`
returns node names while the conditional-edge path map of `_build_graph`
(`agent_graph.py` lines 50–58) is keyed by action names.  The dispatcher
only ever emits `execute`/`complete`, so the router only ever returns
`"execution"`/`"completion"` — neither of which is a key — and the strict
`ends[r]` lookup raises `KeyError` on the very first post-execution branch:
for every task, every plan and every oracle the run aborts at transition 2
and the completion node is never entered. -/
theorem c2_wiring_divergence (po : PlanOracle) (os : Nat → ExecOracle)
    (acts : ActionNodes) (s0 : AgentState) :
    (∀ (o : ExecOracle) (s : AgentState),
       execPathMap (route_after_execution (execution_node o s)) = none) ∧
    (run po os acts s0 2).1 = GNode.error ∧
    (∀ t, (run po os acts s0 t).1 ≠ GNode.completion) := by
  have hmiss : ∀ (o : ExecOracle) (s : AgentState),
      execPathMap (route_after_execution (execution_node o s)) = none := by
    intro o s
    rcases execution_node_cases o s with h | ⟨h, -, -, -⟩
    · rw [route_after_execution_complete h]
      rfl
    · rw [route_after_execution_execute h]
      rfl
  have herr : ∀ t : Nat, (run po os acts s0 (t + 2)).1 = GNode.error := by
    intro t
    induction t with
    | zero =>
      show (graphStep po os acts 1 (run po os acts s0 1)).1 = GNode.error
      have h1 : run po os acts s0 1 = (GNode.execution, planning_node po s0) :=
        rfl
      rw [h1]
      simp only [graphStep]
      rw [hmiss (os 1) (planning_node po s0)]
    | succ n ih =>
      show (graphStep po os acts (n + 2) (run po os acts s0 (n + 2))).1 =
        GNode.error
      rcases hm : run po os acts s0 (n + 2) with ⟨nm, sm⟩
      rw [hm] at ih
      have hnm : nm = GNode.error := ih
      subst hnm
      rfl
  refine ⟨hmiss, herr 0, ?_⟩
  intro t
  rcases t with _ | t
  · simp [run]
  · rcases t with _ | t
    · have h1 : (run po os acts s0 1).1 = GNode.execution := rfl
      rw [h1]
      simp
    · show (run po os acts s0 (t + 2)).1 ≠ GNode.completion
      rw [herr t]
      simp
